import Mathlib

/-!
Verification of the court-data-fetcher scraping layer.

This development shallowly embeds the extraction logic of `scraper.py`,
`causelist_scraper.py` and `app.py`.  HTML documents are modelled at the
level BeautifulSoup exposes them to the code: a document is a list of
tables, a table a list of rows, a row a list of cells (each tagged `th`
or `td`) plus its hyperlinks.  The text of a node stands for the result
of calling get_text with a space separator on it.  Python string operations are
modelled over ASCII: `str.lower` as a per-character map, `str.strip` as
dropping whitespace at both ends, and the `in` operator as substring
containment.  The regular expressions used by the code are implemented
directly, following Python `re` greedy-with-backtracking semantics for
the specific fixed patterns involved.
-/

set_option maxRecDepth 100000

namespace CourtFetcher

/-! ## String model -/

/-- Whitespace characters recognised by the model of `str.strip` and
regex `\s` (space, tab, newline, carriage return). -/
def isWs (c : Char) : Bool := c = ' ' || c = '\t' || c = '\n' || c = '\r'

/-- Model of Python `str.lower` on one character (ASCII range). -/
def lowerChar (c : Char) : Char := c.toLower

/-- Model of Python `str.lower`. -/
def lowerStr (s : String) : String := String.mk (s.toList.map lowerChar)

/-- Drop trailing whitespace of a character list. -/
def dropTrailWs (l : List Char) : List Char :=
  (l.reverse.dropWhile isWs).reverse

/-- Model of Python `str.strip`. -/
def stripStr (s : String) : String :=
  String.mk (dropTrailWs (s.toList.dropWhile isWs))

/-- Does `pat` occur as a contiguous sublist of the second argument? -/
def listContains (pat : List Char) : List Char → Bool
  | [] => pat.isEmpty
  | c :: rest => pat.isPrefixOf (c :: rest) || listContains pat rest

/-- Model of Python `pat in hay` on strings. -/
def containsSub (hay pat : String) : Bool := listContains pat.toList hay.toList

/-- Model of Python `hay.startswith(pat)` (used by the urljoin model). -/
def startsWithStr (hay pat : String) : Bool := pat.toList.isPrefixOf hay.toList

/-- First `n` characters of a string, modelling Python slicing `s[:n]`. -/
def strTake (n : Nat) (s : String) : String := String.mk (s.toList.take n)

/-! ## DOM model -/

/-- The tag of a table cell: `<th>` or `<td>`. -/
inductive Tag where
  | th
  | td
deriving DecidableEq, Repr

/-- A table cell; `text` is the result of get_text with a space separator. -/
structure Cell where
  tag : Tag
  text : String
deriving DecidableEq, Repr

/-- A hyperlink (`<a>` element): its visible text and optional href. -/
structure Anchor where
  text : String
  href : Option String := none
deriving DecidableEq, Repr

/-- A table row: its cells in order, and the anchors appearing in it. -/
structure Row where
  cells : List Cell
  anchors : List Anchor := []
deriving DecidableEq, Repr

/-- A table: its class attribute and its rows in document order. -/
structure Table where
  cls : String := ""
  rows : List Row
deriving DecidableEq, Repr

/-- A parsed document, reduced to its tables in document order. -/
structure Doc where
  tables : List Table
deriving DecidableEq, Repr

/-- The `<td>` cells of a row, as find_all on the td tag returns them. -/
def tdCells (r : Row) : List Cell := r.cells.filter (fun c => c.tag = Tag.td)

/-- Whether the row contains a `<th>` cell (a truthy find on the th tag). -/
def rowHasTh (r : Row) : Bool := r.cells.any (fun c => c.tag = Tag.th)

/-- Text of all `<th>` cells of a table, each one stripped and then
lower-cased, as the source does per header cell. -/
def thTexts (t : Table) : List String :=
  ((t.rows.map (fun r => r.cells.filter (fun c => c.tag = Tag.th))).flatten).map
    (fun c => lowerStr (stripStr c.text))

/-- Header texts of a table: the `<th>` cells, or, when there are none,
all cells of the first row (find_all over both tags on the first tr). -/
def headerTexts (t : Table) : List String :=
  let ths := thTexts t
  if ths.isEmpty then
    match t.rows.head? with
    | some r => r.cells.map (fun c => lowerStr (stripStr c.text))
    | none => []
  else ths

/-- The header texts of a table joined with single spaces. -/
def headerText (t : Table) : String := String.intercalate " " (headerTexts t)

/-- Full text of a table, modelling get_text with a space separator. -/
def tableText (t : Table) : String :=
  String.intercalate " " ((t.rows.map (fun r => r.cells.map Cell.text)).flatten)

/-! ## Regex models -/

/-- Regex `\w` over ASCII: letters, digits, underscore. -/
def isWordChar (c : Char) : Bool := c.isAlphanum || c = '_'

/-- A date separator: a dash or a slash. -/
def isDateSep (c : Char) : Bool := c = '-' || c = '/'

/-- Length of the leading run of decimal digits. -/
def digitRun (l : List Char) : Nat := (l.takeWhile Char.isDigit).length

/-- Regex `\b` holding after a consumed word character: the next
character must not be a word character (or the input must end). -/
def boundaryAfter : List Char → Bool
  | [] => true
  | c :: _ => !isWordChar c

/-- Try to match the date pattern (one or two digits, a dash-or-slash separator,
one or two digits, a separator, two to four digits, then a word
boundary) at the head of the list, returning the matched characters.  Backtracking of the bounded
digit repetitions collapses to conditions on the maximal digit runs,
because any shorter greedy take leaves a digit where a separator or a
word boundary is required. -/
def matchDateHere (l : List Char) : Option (List Char) :=
  let d1 := digitRun l
  if d1 = 0 || d1 > 2 then none
  else
    match l.drop d1 with
    | s1 :: l2 =>
      if !isDateSep s1 then none
      else
        let d2 := digitRun l2
        if d2 = 0 || d2 > 2 then none
        else
          match l2.drop d2 with
          | s2 :: l4 =>
            if !isDateSep s2 then none
            else
              let d3 := digitRun l4
              if d3 < 2 || d3 > 4 then none
              else if boundaryAfter (l4.drop d3) then
                some (l.take d1 ++ s1 :: l2.take d2 ++ s2 :: l4.take d3)
              else none
          | [] => none
    | [] => none

/-- Leftmost match of the anchored date pattern; `prev` is the
character before the current position, used for the leading `\b`. -/
def searchDate (prev : Option Char) : List Char → Option (List Char)
  | [] => none
  | c :: rest =>
    let bOK := match prev with
      | none => true
      | some p => !isWordChar p
    if bOK then
      match matchDateHere (c :: rest) with
      | some m => some m
      | none => searchDate (some c) rest
    else searchDate (some c) rest

/-- Model of the date regex search of the source (pattern
`\b \d{1,2} sep \d{1,2} sep \d{2,4} \b` with sep a dash or slash),
returning the matched text of the leftmost match. -/
def findDate (s : String) : Option String :=
  (searchDate none s.toList).map String.mk

/-- Character class `[A-Za-z\s]` of the bench regex. -/
def isBenchLead (c : Char) : Bool := c.isAlpha || isWs c

/-- Character class `[\s\w,\-()]` of the bench regex tail. -/
def isBenchTrail (c : Char) : Bool :=
  isWs c || isWordChar c || c = ',' || c = '-' || c = '(' || c = ')'

/-- The literal `bench`. -/
def benchLit : List Char := ['b', 'e', 'n', 'c', 'h']

/-- Attempt the bench regex at this position with exactly `k` leading
class characters: requires the literal `bench` at offset `k`, then
consumes the trailing class greedily. -/
def benchAtK (l : List Char) (k : Nat) : Option (List Char) :=
  let rest := l.drop k
  if benchLit.isPrefixOf rest then
    some (l.take k ++ benchLit ++ (rest.drop 5).takeWhile isBenchTrail)
  else none

/-- Greedy backtracking over the `{4,50}` repetition: try `k` leading
class characters, largest first, stopping below 4. -/
def benchDown (l : List Char) : Nat → Option (List Char)
  | 0 => none
  | k + 1 =>
    if k + 1 < 4 then none
    else
      match benchAtK l (k + 1) with
      | some m => some m
      | none => benchDown l k

/-- Try the bench regex `[A-Za-z\s]{4,50}bench[\s\w,\-()]*` at the head
of the list. -/
def matchBenchHere (l : List Char) : Option (List Char) :=
  benchDown l (min (l.takeWhile isBenchLead).length 50)

/-- Leftmost match of the bench regex. -/
def searchBench : List Char → Option (List Char)
  | [] => none
  | c :: rest =>
    match matchBenchHere (c :: rest) with
    | some m => some m
    | none => searchBench rest

/-- Model of the bench regex search of the source (four to fifty
letters or spaces, the literal bench, then a trailing class of word
characters, whitespace, commas, dashes and parentheses), returning the
matched text of the leftmost match. -/
def benchSearch (s : String) : Option String :=
  (searchBench s.toList).map String.mk

end CourtFetcher

namespace CourtFetcher

/-! ## Embedding of `causelist_scraper.py` -/

/-- A normalized cause-list row (`parse_causelist_html` output shape). -/
structure CauseListEntry where
  case_ref : String
  parties : String
  hearing_date : String
  bench : String
  raw_row_html : String
deriving DecidableEq, Repr

/-- The header keyword list of `parse_causelist_html`. -/
def causelistHeaderKeywords : List String :=
  ["case type", "case number", "case no", "case year", "sr no",
   "petitioner", "respondent", "party", "view", "hearing", "bench"]

/-- `table_score` of `parse_causelist_html`: how many keywords occur in
the joined header text. -/
def table_score (t : Table) : Nat :=
  causelistHeaderKeywords.countP (fun k => containsSub (headerText t) k)

/-- One step of the best-candidate fold: keep the new table only when
its score strictly exceeds the best so far. -/
def bestStep (acc : Option Table × Nat) (t : Table) : Option Table × Nat :=
  let s := table_score t
  if s > acc.2 then (some t, s) else acc

/-- The candidate/best-score loop of `parse_causelist_html`, starting
from `(None, 0)`. -/
def bestCandidate (tables : List Table) : Option Table × Nat :=
  tables.foldl bestStep (none, 0)

/-- The fallback predicate of `parse_causelist_html`: full table text,
lower-cased, mentions `view`, `case no` or `case number`. -/
def causelistFallbackMatch (t : Table) : Bool :=
  let txt := lowerStr (tableText t)
  containsSub txt "view" || containsSub txt "case no" || containsSub txt "case number"

/-- The fallback loop: first table satisfying the fallback predicate. -/
def causelistFallback (tables : List Table) : Option Table :=
  tables.find? causelistFallbackMatch

/-- Rendering of a row used for `raw_row_html` (`str(tr)`). -/
def cellHtml (c : Cell) : String :=
  match c.tag with
  | Tag.th => "<th>" ++ c.text ++ "</th>"
  | Tag.td => "<td>" ++ c.text ++ "</td>"

/-- Rendering of a row used for `raw_row_html` (`str(tr)`). -/
def rowHtml (r : Row) : String :=
  "<tr>" ++ String.join (r.cells.map cellHtml) ++ "</tr>"

/-- The per-row extraction of `parse_causelist_html`: second cell (else
first) as case reference, third cell (if any) as parties, first date
match in the lower-cased joined cell texts as hearing date, and the
bench regex match when the joined text mentions `bench`. -/
def rowEntry (r : Row) : CauseListEntry :=
  let cols := tdCells r
  let texts := cols.map (fun c => stripStr c.text)
  let case_ref : String :=
    if cols.length ≥ 2 then texts.getD 1 "" else texts.getD 0 ""
  let parties : Option String :=
    if cols.length ≥ 3 then some (texts.getD 2 "") else none
  let combined := lowerStr (String.intercalate " " texts)
  let hearing_date : Option String := findDate combined
  let bench : Option String :=
    if containsSub combined "bench" then
      (benchSearch combined).map stripStr
    else none
  { case_ref := case_ref
    parties := parties.getD ""
    hearing_date := hearing_date.getD ""
    bench := bench.getD ""
    raw_row_html := rowHtml r }

/-- The row loop of `parse_causelist_html`: skip rows containing a
header cell, skip rows with no `<td>` cell, and append the extracted
entry of every other row. -/
def causelistRowsLoop : List Row → List CauseListEntry
  | [] => []
  | r :: rest =>
    if rowHasTh r then causelistRowsLoop rest
    else if (tdCells r).isEmpty then causelistRowsLoop rest
    else rowEntry r :: causelistRowsLoop rest

/-- `parse_causelist_html`, embedded on the parsed document: pick the
best-scoring table, fall back to the text-based scan when no table
scored, return the empty list when no candidate is found, and otherwise
run the row loop on the candidate. -/
def parse_causelist_html (d : Doc) : List CauseListEntry :=
  let b := bestCandidate d.tables
  let candidate : Option Table :=
    if b.1.isNone || b.2 = 0 then
      match causelistFallback d.tables with
      | some t2 => some t2
      | none => b.1
    else b.1
  match candidate with
  | none => []
  | some t => causelistRowsLoop t.rows

/-! ### PDF parsing (`parse_causelist_pdf_bytes`) -/

/-- Helper of `splitLines`: accumulate the current line (reversed). -/
def splitLinesAux (acc : List Char) : List Char → List String
  | [] => [String.mk acc.reverse]
  | c :: rest =>
    if c = '\n' then String.mk acc.reverse :: splitLinesAux [] rest
    else splitLinesAux (c :: acc) rest

/-- Model of Python `text.splitlines` (split on newline; the stripping
done by the caller removes any carriage returns). -/
def splitLines (s : String) : List String := splitLinesAux [] s.toList

/-- Match `case` + one-or-more whitespace + `no` at the head of the
list (enough of `case\s+no\.?` to decide a search hit, since the final
optional dot never affects whether a match exists). -/
def caseNoAt (l : List Char) : Bool :=
  if ['c', 'a', 's', 'e'].isPrefixOf l then
    let l1 := l.drop 4
    let w := (l1.takeWhile isWs).length
    w ≥ 1 && ['n', 'o'].isPrefixOf (l1.drop w)
  else false

/-- Match `case` + one-or-more whitespace + `number` at the head. -/
def caseNumberAt (l : List Char) : Bool :=
  if ['c', 'a', 's', 'e'].isPrefixOf l then
    let l1 := l.drop 4
    let w := (l1.takeWhile isWs).length
    w ≥ 1 && ['n', 'u', 'm', 'b', 'e', 'r'].isPrefixOf (l1.drop w)
  else false

/-- Match the numeric alternative `\b\d{1,5}/\d{2,4}\b` at the head;
`prevWord` tells whether the previous character was a word character
(which falsifies the leading boundary). -/
def slashNumAt (prevWord : Bool) (l : List Char) : Bool :=
  if prevWord then false
  else
    let d1 := digitRun l
    if d1 = 0 || d1 > 5 then false
    else
      match l.drop d1 with
      | '/' :: l2 =>
        let d2 := digitRun l2
        2 ≤ d2 && d2 ≤ 4 && boundaryAfter (l2.drop d2)
      | _ => false

/-- Search of the case-likeness regex of `parse_causelist_pdf_bytes`
(alternatives `cnr`, `case\s+no\.?`, `case\s+number`, `no.`, and the
numeric pattern) over an already lower-cased character list; `prev` is
the previous character. -/
def caseLikeSearch (prev : Option Char) : List Char → Bool
  | [] => false
  | c :: rest =>
    let l := c :: rest
    let prevWord := match prev with
      | none => false
      | some p => isWordChar p
    ['c', 'n', 'r'].isPrefixOf l || caseNoAt l || caseNumberAt l ||
      ['n', 'o', '.'].isPrefixOf l || slashNumAt prevWord l ||
      caseLikeSearch (some c) rest

/-- Whether a line qualifies as case-like (`case_like_re.search(line)`
with `re.I`, modelled by searching the lower-cased line). -/
def caseLike (line : String) : Bool :=
  caseLikeSearch none (lowerStr line).toList

/-- The entry built from one qualifying PDF text line. -/
def pdfLineEntry (line : String) : CauseListEntry :=
  { case_ref := line
    parties := ""
    hearing_date := (findDate line).getD ""
    bench := ""
    raw_row_html := line }

/-- `parse_causelist_pdf_bytes`, embedded.  The injected PDF
text-extraction capability (`pdfminer.six`, imported as `extract_text`
and left `None` when unavailable) is a parameter; the PDF bytes are a
byte list.  When the capability is missing the function raises
`RuntimeError`, modelled as `Except.error`; otherwise the extracted
text is split into non-empty stripped lines and every case-like line
becomes one entry. -/
def parse_causelist_pdf_bytes (extract_text : Option (List Nat → String))
    (pdf_bytes : List Nat) : Except String (List CauseListEntry) :=
  match extract_text with
  | none =>
    Except.error "pdfminer.six is required to parse PDFs. Please install pdfminer.six"
  | some f =>
    let text := f pdf_bytes
    let lines := ((splitLines text).map stripStr).filter (fun l => l ≠ "")
    Except.ok ((lines.filter caseLike).map pdfLineEntry)

end CourtFetcher

namespace CourtFetcher

/-! ## Embedding of `scraper.py` (`fetch_ecourts_data`, response side)

The network round trips of `fetch_ecourts_data` (form fetch, payload
construction, POST) are outside the extraction logic the claims are
about; the embedding starts where the submission response is in hand.
The response body and its parsed document are the inputs, and the
per-row detail-page fetch (`session.get` on the resolved link) is a
parameter mapping a detail URL to the fetched page or to `none` on
failure. -/

/-- The normalized result of a successful submission (the `parsed_data`
dictionary of `fetch_ecourts_data`). -/
structure ParsedCase where
  case_ref : String
  parties : String
  filing_date : String
  next_hearing_date : String
  case_status : String
  judgment_link : Option String
  detail_page_html : Option String
deriving DecidableEq, Repr

/-- The triple returned by `fetch_ecourts_data`:
`(parsed_data | None, raw_html | None, error | None)`. -/
structure FetchResult where
  parsed : Option ParsedCase
  raw : Option String
  err : Option String
deriving DecidableEq, Repr

/-- A fetched and parsed detail page: its raw text, its tables, the
href of the first judgment-labelled hyperlink with an href (if any),
and the page URL used to resolve that href. -/
structure DetailPage where
  raw : String
  tables : List Table
  judgmentHref : Option String := none
  url : String := ""
deriving DecidableEq, Repr

/-- A coarse model of `urllib.parse.urljoin` for the cases arising
here: an absolute href wins, an empty href keeps the base, and a
relative href replaces the last path segment of the base. -/
def urljoinModel (base rel : String) : String :=
  if rel = "" then base
  else if startsWithStr rel "http://" || startsWithStr rel "https://" then rel
  else String.mk ((base.toList.reverse.dropWhile (fun c => c ≠ '/')).reverse) ++ rel

/-- The error-body test of `fetch_ecourts_data`: the lower-cased body
contains `invalid captcha`, `record not found` or `no record found`. -/
def errorBody (raw : String) : Bool :=
  let lowered := lowerStr raw
  containsSub lowered "invalid captcha" || containsSub lowered "record not found" ||
    containsSub lowered "no record found"

/-- The header keyword list of `find_results_table` in `scraper.py`. -/
def scraperHeaderKeywords : List String :=
  ["case type", "case number", "case year", "sr no",
   "petitioner", "respondent", "party", "view"]

/-- Whether the joined header text of a table contains at least one of the
`scraper.py` header keywords. -/
def scraperHeaderMatch (t : Table) : Bool :=
  scraperHeaderKeywords.any (fun k => containsSub (headerText t) k)

/-- `find_results_table` of `scraper.py`: return the first table whose
header text contains any of the keywords. -/
def find_results_table (d : Doc) : Option Table :=
  d.tables.find? scraperHeaderMatch

/-- The anchor test of the source for View links: the lower-cased
anchor text contains the word view (an empty text never matches). -/
def isViewAnchor (a : Anchor) : Bool := containsSub (lowerStr a.text) "view"

/-- The fallback of `fetch_ecourts_data` when no results table is
found: the ancestor table of the first `View` link in document order. -/
def viewFallbackTable (d : Doc) : Option Table :=
  d.tables.find? (fun t => t.rows.any (fun r => r.anchors.any isViewAnchor))

/-- The detail-link choice in a result row: the first `View`-labelled
anchor, else the first anchor of the row. -/
def detailAnchor (r : Row) : Option Anchor :=
  match r.anchors.find? isViewAnchor with
  | some a => some a
  | none => r.anchors.head?

/-- Whether the class attribute of a table matches the
case-insensitive table_val pattern of the source. -/
def hasTableValClass (t : Table) : Bool := containsSub (lowerStr t.cls) "table_val"

/-- The detail-table choice on a detail page: a table whose class
matches `table_val`, else the first table whose text mentions
petitioner, respondent, filed or hearing. -/
def findDetailTable (p : DetailPage) : Option Table :=
  match p.tables.find? hasTableValClass with
  | some t => some t
  | none =>
    p.tables.find? (fun t =>
      let txt := lowerStr (tableText t)
      containsSub txt "petitioner" || containsSub txt "respondent" ||
        containsSub txt "filed" || containsSub txt "hearing")

/-- The label-classified fields collected from the detail table. -/
structure DetailFields where
  filing_date : Option String := none
  next_hearing_date : Option String := none
  case_status : Option String := none
deriving DecidableEq, Repr

/-- One iteration of the detail key/value loop: rows with at least two
`<td>` cells classify the first cell as a label and the second as the
value; later rows overwrite earlier ones. -/
def updateDetail (acc : DetailFields) (r : Row) : DetailFields :=
  match tdCells r with
  | c0 :: c1 :: _ =>
    let label := lowerStr (stripStr c0.text)
    let value := stripStr c1.text
    let acc1 :=
      if containsSub label "filed" || containsSub label "filing" ||
          containsSub label "date of filing" then
        { acc with filing_date := some value }
      else acc
    let acc2 :=
      if containsSub label "next" && containsSub label "hearing" then
        { acc1 with next_hearing_date := some value }
      else acc1
    if containsSub label "status" then { acc2 with case_status := some value } else acc2
  | _ => acc

/-- The detail key/value extraction over all rows of the detail table. -/
def extractDetailFields (t : Table) : DetailFields :=
  t.rows.foldl updateDetail {}

/-- Model of the or-sentinel idiom of the source on an optional
string: an absent value and the empty string both give the literal
sentinel text Not Found. -/
def orNotFound : Option String → String
  | none => "Not Found"
  | some s => if s = "" then "Not Found" else s

/-- The body of the result-row loop of `fetch_ecourts_data` for one
usable row: second `<td>` as case reference, third (if present) as
parties, optional detail fetch through the link of the row, detail-table
classification, and sentinel defaults. -/
def extractRow (respUrl : String) (fetchDetail : String → Option DetailPage)
    (r : Row) : ParsedCase :=
  let cells := tdCells r
  let case_ref : String :=
    match cells[1]? with
    | some c => stripStr c.text
    | none => ""
  let parties : Option String :=
    match cells[2]? with
    | some c => some (stripStr c.text)
    | none => none
  let detail : Option DetailPage :=
    match detailAnchor r with
    | some a =>
      match a.href with
      | some h => if h = "" then none else fetchDetail (urljoinModel respUrl h)
      | none => none
    | none => none
  let df : DetailFields :=
    match detail with
    | some p =>
      match findDetailTable p with
      | some t => extractDetailFields t
      | none => {}
    | none => {}
  let judgment : Option String :=
    match detail with
    | some p =>
      match findDetailTable p with
      | some _ => p.judgmentHref.map (fun h => urljoinModel p.url h)
      | none => none
    | none => none
  { case_ref := case_ref
    parties := orNotFound parties
    filing_date := orNotFound df.filing_date
    next_hearing_date := orNotFound df.next_hearing_date
    case_status := orNotFound df.case_status
    judgment_link := judgment
    detail_page_html := detail.map DetailPage.raw }

/-- The result-row loop of `fetch_ecourts_data`: skip rows containing a
header cell and rows with fewer than two `<td>` cells; the first
remaining row is extracted and the loop stops (the `break` fires for
every extracted row, because the built dictionary is always truthy). -/
def scanRows (respUrl : String) (fetchDetail : String → Option DetailPage) :
    List Row → Option ParsedCase
  | [] => none
  | r :: rest =>
    if rowHasTh r then scanRows respUrl fetchDetail rest
    else if (tdCells r).length < 2 then scanRows respUrl fetchDetail rest
    else some (extractRow respUrl fetchDetail r)

/-- A usable result row: no header cell and at least two `<td>` cells. -/
def usableRow (r : Row) : Bool := !rowHasTh r && decide ((tdCells r).length ≥ 2)

/-- The tail of `fetch_ecourts_data` once the results table (or its
absence) is decided: no table is the table-not-found failure, and
otherwise the row loop runs on the table. -/
def rowsOutcome (raw respUrl : String) (fetchDetail : String → Option DetailPage) :
    Option Table → FetchResult
  | none =>
    { parsed := none, raw := some raw,
      err := some "Could not find the case details table on the page." }
  | some t =>
    match scanRows respUrl fetchDetail t.rows with
    | none =>
      { parsed := none, raw := some raw,
        err := some "No usable rows found in results table." }
    | some pc => { parsed := some pc, raw := some raw, err := none }

/-- `fetch_ecourts_data` from the point where the submission response
is in hand: classify error bodies, locate the results table (keyword
search, then `View`-link fallback), and extract the first usable row. -/
def fetch_ecourts_data (raw : String) (d : Doc) (respUrl : String)
    (fetchDetail : String → Option DetailPage) : FetchResult :=
  if errorBody raw then
    { parsed := none, raw := some raw, err := some "Record Not Found or Invalid CAPTCHA." }
  else
    rowsOutcome raw respUrl fetchDetail
      (match find_results_table d with
       | some t => some t
       | none => viewFallbackTable d)

end CourtFetcher

namespace CourtFetcher

/-! ## Embedding of `app.py` (watch evaluation and mode selection) -/

/-- A persisted watch, with the fields `check_watches` reads or
writes.  `last_notified` is a timestamp modelled as a natural number. -/
structure Watch where
  id : Nat
  monitor_url : String
  case_identifier : String
  active : Bool := true
  last_notified : Option Nat := none
deriving DecidableEq, Repr

/-- A notification record created by `check_watches`. -/
structure Notification where
  watch_id : Nat
  matched_text : String
  cause_url : String
deriving DecidableEq, Repr

/-- The single quote character, used by the Python `repr` model. -/
def sq : String := String.singleton (Char.ofNat 39)

/-- A field of the Python dictionary repr: quoted key, colon, quoted
value (the model assumes values without quotes or backslashes, which
is all the claims evaluate). -/
def reprField (key value : String) : String :=
  sq ++ key ++ sq ++ ": " ++ sq ++ value ++ sq

/-- Model of `str(entry)` on a cause-list entry dictionary: the Python
dict repr with the five keys in insertion order. -/
def entryRepr (e : CauseListEntry) : String :=
  "\x7b" ++ reprField "case_ref" e.case_ref ++ ", " ++
    reprField "parties" e.parties ++ ", " ++
    reprField "hearing_date" e.hearing_date ++ ", " ++
    reprField "bench" e.bench ++ ", " ++
    reprField "raw_row_html" e.raw_row_html ++ "\x7d"

/-- The match haystack of `check_watches`: the lower-cased
concatenation of the case reference, a space, and the parties text. -/
def entryHaystack (e : CauseListEntry) : String :=
  lowerStr (e.case_ref ++ " " ++ e.parties)

/-- Whether a watch matches an entry: the lower-cased identifier occurs
in the haystack. -/
def watchMatches (w : Watch) (e : CauseListEntry) : Bool :=
  containsSub (entryHaystack e) (lowerStr w.case_identifier)

/-- The per-watch entry loop of `check_watches`: on the first matching
entry, create one notification with the matched text truncated to 200
characters, stamp `last_notified` with the current time, and stop.
Returns the created notifications and the updated watch. -/
def check_watches_scan (now : Nat) (w : Watch) :
    List CauseListEntry → List Notification × Watch
  | [] => ([], w)
  | e :: rest =>
    if watchMatches w e then
      ([{ watch_id := w.id, matched_text := strTake 200 (entryRepr e),
          cause_url := w.monitor_url }],
       { w with last_notified := some now })
    else check_watches_scan now w rest

/-- The search-criteria priority list of the `/fetch` route. -/
def searchPriority : List String :=
  ["cino", "party_name", "case_number", "filing_number", "advocate_name",
   "fir_number", "act", "case_type_only"]

/-- The mode-selection loop of the `/fetch` route: the first criteria
name for which `request.form.get(criteria)` is not `None` — that is,
the first field present in the submitted form, regardless of whether
its value is empty. -/
def selectSearchCriteria (form : String → Option String) : Option String :=
  searchPriority.find? (fun c => (form c).isSome)

/-! ## Definitions modelled from the spec, for refinement comparisons

Each of the following follows the words of a spec sentence rather than
the source; the claims compare them with the source-derived functions
above. -/

/-- Modelled from the spec: result-table discovery that scores every
table by the eleven-keyword set and selects the highest-scoring table
with a strictly positive score (spec section on result-table
discovery). -/
def specFindResultsTable (d : Doc) : Option Table :=
  (bestCandidate d.tables).1

/-- Modelled from the spec: the row scan that `stops at the first row
yielding a non-empty case reference` — it skips a usable row whose
second-cell text strips to the empty string and keeps scanning. -/
def specScanRows (respUrl : String) (fetchDetail : String → Option DetailPage) :
    List Row → Option ParsedCase
  | [] => none
  | r :: rest =>
    if rowHasTh r then specScanRows respUrl fetchDetail rest
    else if (tdCells r).length < 2 then specScanRows respUrl fetchDetail rest
    else if (extractRow respUrl fetchDetail r).case_ref = "" then
      specScanRows respUrl fetchDetail rest
    else some (extractRow respUrl fetchDetail r)

/-- Modelled from the spec: mode selection that picks the first field
in the priority order whose submitted value is non-empty. -/
def specSelectSearchCriteria (form : String → Option String) : Option String :=
  searchPriority.find? (fun c =>
    match form c with
    | some v => v ≠ ""
    | none => false)

end CourtFetcher

namespace CourtFetcher

/-! ## Concrete inputs used by the theorems -/

/-- A detail-fetch that always fails (no detail page available). -/
def noDetail : String → Option DetailPage := fun _ => none

/-- A table whose only header word is `Party` (first-row header, no
`<th>`). -/
def tablePartyOnly : Table :=
  { rows := [{ cells := [⟨Tag.td, "Party"⟩] },
             { cells := [⟨Tag.td, "x"⟩, ⟨Tag.td, "y"⟩] }] }

/-- A table whose `<th>` header mentions five of the keywords. -/
def tableRichHeader : Table :=
  { rows := [{ cells := [⟨Tag.th, "Case Type"⟩, ⟨Tag.th, "Case Number"⟩,
                         ⟨Tag.th, "Case Year"⟩, ⟨Tag.th, "Petitioner"⟩,
                         ⟨Tag.th, "Respondent"⟩] },
             { cells := [⟨Tag.td, "1"⟩, ⟨Tag.td, "CRL.A 7/2021"⟩] }] }

/-- A table whose only header word is `Hearing`. -/
def tableHearingOnly : Table :=
  { rows := [{ cells := [⟨Tag.th, "Hearing"⟩] },
             { cells := [⟨Tag.td, "z"⟩] }] }

/-- A document with a low-scoring table before a high-scoring one. -/
def exDocC1 : Doc := { tables := [tablePartyOnly, tableRichHeader] }

/-- A document whose only table header matches `hearing` alone. -/
def exDocHearing : Doc := { tables := [tableHearingOnly] }

/-- A header row announcing `Sr No | Case Number`. -/
def hdrRowCaseNumber : Row :=
  { cells := [⟨Tag.th, "Sr No"⟩, ⟨Tag.th, "Case Number"⟩] }

/-- A results table whose first data row has an empty second cell. -/
def exTableC2 : Table :=
  { rows := [hdrRowCaseNumber, { cells := [⟨Tag.td, "1"⟩, ⟨Tag.td, ""⟩] }] }

/-- Document wrapper for `exTableC2`. -/
def exDocC2 : Doc := { tables := [exTableC2] }

/-- The case extracted from a usable row with an empty second cell and
no detail page: every sentinel field defaults, the reference is empty. -/
def emptyCase : ParsedCase :=
  { case_ref := "", parties := "Not Found", filing_date := "Not Found",
    next_hearing_date := "Not Found", case_status := "Not Found",
    judgment_link := none, detail_page_html := none }

/-- A results table whose first usable row has a whitespace-only second
cell and whose next row carries a real case reference. -/
def exTableC3 : Table :=
  { rows := [hdrRowCaseNumber,
             { cells := [⟨Tag.td, ""⟩, ⟨Tag.td, "  "⟩] },
             { cells := [⟨Tag.td, "1"⟩, ⟨Tag.td, "CRL.A 5/2020"⟩] }] }

/-- Document wrapper for `exTableC3`. -/
def exDocC3 : Doc := { tables := [exTableC3] }

/-- The case the spec-modelled scan extracts from `exTableC3`. -/
def fullCaseC3 : ParsedCase :=
  { case_ref := "CRL.A 5/2020", parties := "Not Found",
    filing_date := "Not Found", next_hearing_date := "Not Found",
    case_status := "Not Found", judgment_link := none, detail_page_html := none }

/-- The cause-list header row of the spec scenario. -/
def c4HeaderRow : Row :=
  { cells := [⟨Tag.th, "Sr No"⟩, ⟨Tag.th, "Case No"⟩, ⟨Tag.th, "Parties"⟩,
              ⟨Tag.th, "Hearing Date"⟩] }

/-- The cause-list data row of the spec scenario. -/
def c4DataRow : Row :=
  { cells := [⟨Tag.td, "1"⟩, ⟨Tag.td, "CRL.A 123/2024"⟩, ⟨Tag.td, "A vs B"⟩,
              ⟨Tag.td, "12-03-2025"⟩] }

/-- The document of the spec scenario. -/
def exDocC4 : Doc := { tables := [{ rows := [c4HeaderRow, c4DataRow] }] }

/-- The entry the scenario document parses to. -/
def c4Entry : CauseListEntry :=
  { case_ref := "CRL.A 123/2024", parties := "A vs B",
    hearing_date := "12-03-2025", bench := "",
    raw_row_html :=
      "<tr><td>1</td><td>CRL.A 123/2024</td><td>A vs B</td><td>12-03-2025</td></tr>" }

/-- A document whose single table matches no keyword and no fallback. -/
def exDocC5 : Doc :=
  { tables := [{ rows := [{ cells := [⟨Tag.td, "hello world"⟩] }] }] }

/-- A watch on the scenario case number. -/
def exWatchC8 : Watch :=
  { id := 1, monitor_url := "http://causelist.example/today",
    case_identifier := "123/2024" }

/-- A submitted form with `cino` present but empty and both
`party_name` and `case_number` present and non-empty. -/
def exFormC9 : String → Option String := fun f =>
  if f = "cino" then some ""
  else if f = "party_name" then some "John Doe"
  else if f = "case_number" then some "42"
  else none

/-- A submitted form without `cino`, with `party_name` and
`case_number` present and non-empty. -/
def wFormC9 : String → Option String := fun f =>
  if f = "party_name" then some "John Doe"
  else if f = "case_number" then some "42"
  else none

/-- A cause-list row naming a bench with capitalised source text. -/
def c10Row : Row :=
  { cells := [⟨Tag.td, "1"⟩, ⟨Tag.td, "CRL.A 9/2020"⟩, ⟨Tag.td, "X vs Y"⟩,
              ⟨Tag.td, "Principal Bench"⟩] }

/-- Document wrapper for `c10Row` under the scenario header. -/
def exDocC10 : Doc := { tables := [{ rows := [c4HeaderRow, c10Row] }] }

/-- The entry `exDocC10` parses to: the bench text is lower-cased while
the case reference and parties keep the source casing. -/
def c10Entry : CauseListEntry :=
  { case_ref := "CRL.A 9/2020", parties := "X vs Y", hearing_date := "",
    bench := "x vs y principal bench",
    raw_row_html :=
      "<tr><td>1</td><td>CRL.A 9/2020</td><td>X vs Y</td><td>Principal Bench</td></tr>" }

end CourtFetcher


namespace CourtFetcher

/-! ## Helper lemmas -/

/-- `List.find?` splits its input at the first element satisfying the
predicate. -/
theorem find?_eq_some_split {α : Type} (p : α → Bool) (l : List α)
    (h : ∃ a ∈ l, p a = true) :
    ∃ pre a post, l = pre ++ a :: post ∧ p a = true ∧
      (∀ b ∈ pre, p b = false) ∧ l.find? p = some a := by
  induction l with
  | nil => simp at h
  | cons c rest ih =>
    cases hp : p c with
    | true =>
      exact ⟨[], c, rest, rfl, hp, by simp, by simp [List.find?, hp]⟩
    | false =>
      obtain ⟨a, ha, hpa⟩ := h
      rcases List.mem_cons.mp ha with rfl | ha2
      · rw [hp] at hpa; cases hpa
      · obtain ⟨pre, a2, post, heq, hpa2, hpre, hfind⟩ := ih ⟨a, ha2, hpa⟩
        refine ⟨c :: pre, a2, post, by rw [heq]; rfl, hpa2, ?_, by simp [List.find?, hp, hfind]⟩
        intro b hb
        rcases List.mem_cons.mp hb with rfl | hb2
        · exact hp
        · exact hpre b hb2

/-- The result-row loop is the first-usable-row map. -/
theorem scanRows_eq_find? (url : String) (fd : String → Option DetailPage)
    (rows : List Row) :
    scanRows url fd rows = (rows.find? usableRow).map (extractRow url fd) := by
  induction rows with
  | nil => rfl
  | cons r rest ih =>
    by_cases h1 : rowHasTh r = true
    · have hu : usableRow r = false := by simp [usableRow, h1]
      simp [scanRows, h1, List.find?, hu, ih]
    · rw [Bool.not_eq_true] at h1
      by_cases h2 : (tdCells r).length < 2
      · have hu : usableRow r = false := by
          simp [usableRow, h1]
          omega
        simp [scanRows, h1, h2, List.find?, hu, ih]
      · have hu : usableRow r = true := by
          simp [usableRow, h1]
          omega
        simp [scanRows, h1, h2, List.find?, hu]

/-- A case produced by the row loop is the extraction of some row. -/
theorem scanRows_some {url : String} {fd : String → Option DetailPage}
    {rows : List Row} {pc : ParsedCase}
    (h : scanRows url fd rows = some pc) :
    ∃ r ∈ rows, pc = extractRow url fd r := by
  rw [scanRows_eq_find?] at h
  cases hf : rows.find? usableRow with
  | none => rw [hf] at h; cases h
  | some r =>
    rw [hf] at h
    refine ⟨r, List.mem_of_find?_eq_some hf, ?_⟩
    injection h with h2
    exact h2.symm

/-- The or-sentinel idiom never produces the empty string. -/
theorem orNotFound_ne_empty (x : Option String) : orNotFound x ≠ "" := by
  cases x with
  | none => simp [orNotFound]
  | some s =>
    simp only [orNotFound]
    split
    · simp
    · next h => exact h

/-- A non-absent parse result of `fetch_ecourts_data` comes out of the
row loop, hence is the extraction of some row. -/
theorem rowsOutcome_parsed_from_scan {raw respUrl : String}
    {fd : String → Option DetailPage} {ot : Option Table} {pc : ParsedCase}
    (h : (rowsOutcome raw respUrl fd ot).parsed = some pc) :
    ∃ r, pc = extractRow respUrl fd r := by
  cases ot with
  | none => cases h
  | some t =>
    unfold rowsOutcome at h
    dsimp only at h
    cases hscan : scanRows respUrl fd t.rows with
    | none => rw [hscan] at h; cases h
    | some pc2 =>
      rw [hscan] at h
      dsimp only at h
      injection h with h2
      subst h2
      obtain ⟨r, _, hr⟩ := scanRows_some hscan
      exact ⟨r, hr⟩

/-- A non-absent parse result of `fetch_ecourts_data` comes out of the
row loop, hence is the extraction of some row. -/
theorem fetch_parsed_from_scan {raw : String} {d : Doc} {respUrl : String}
    {fd : String → Option DetailPage} {pc : ParsedCase}
    (h : (fetch_ecourts_data raw d respUrl fd).parsed = some pc) :
    ∃ r, pc = extractRow respUrl fd r := by
  unfold fetch_ecourts_data at h
  split at h
  · cases h
  · exact rowsOutcome_parsed_from_scan h

/-- The cause-list row loop is a filter-and-map over the rows. -/
theorem causelistRowsLoop_eq (rows : List Row) :
    causelistRowsLoop rows =
      (rows.filter (fun r => !rowHasTh r && !(tdCells r).isEmpty)).map rowEntry := by
  induction rows with
  | nil => rfl
  | cons r rest ih =>
    by_cases h1 : rowHasTh r = true
    · simp [causelistRowsLoop, h1, List.filter, ih]
    · rw [Bool.not_eq_true] at h1
      by_cases h2 : (tdCells r).isEmpty = true
      · simp [causelistRowsLoop, h1, h2, List.filter, ih]
      · rw [Bool.not_eq_true] at h2
        simp [causelistRowsLoop, h1, h2, List.filter, ih]

/-- Every entry produced by the cause-list row loop is the extraction
of some row. -/
theorem causelistRowsLoop_mem {e : CauseListEntry} :
    ∀ {rows : List Row}, e ∈ causelistRowsLoop rows → ∃ r, e = rowEntry r := by
  intro rows
  induction rows with
  | nil => intro h; cases h
  | cons r rest ih =>
    intro h
    unfold causelistRowsLoop at h
    split at h
    · exact ih h
    · split at h
      · exact ih h
      · rcases List.mem_cons.mp h with rfl | h2
        · exact ⟨r, rfl⟩
        · exact ih h2

/-- The best-candidate fold stays at `(none, 0)` when every table
scores zero. -/
theorem bestCandidate_all_zero {tables : List Table}
    (h : ∀ t ∈ tables, table_score t = 0) : bestCandidate tables = (none, 0) := by
  unfold bestCandidate
  induction tables with
  | nil => rfl
  | cons t rest ih =>
    have h0 : table_score t = 0 := h t (by simp)
    have hstep : bestStep (none, 0) t = (none, 0) := by simp [bestStep, h0]
    rw [List.foldl_cons, hstep]
    exact ih (fun t2 ht2 => h t2 (by simp [ht2]))

end CourtFetcher

namespace CourtFetcher

/-- Lower-casing a character never yields an ASCII capital letter. -/
theorem toLower_isUpper_false (c : Char) : (Char.toLower c).isUpper = false := by
  simp only [Char.toLower, Char.toNat, Char.isUpper]
  split
  next h =>
    obtain ⟨h1, h2⟩ := h
    have hvalid : Nat.isValidChar (c.val.toNat + 32) := Or.inl (by omega)
    have hv : ((Char.ofNat (c.val.toNat + 32)).val).toNat = c.val.toNat + 32 := by
      simp only [Char.ofNat, hvalid, dite_true, Char.ofNatAux]
      rfl
    have h90 : ¬ ((Char.ofNat (c.val.toNat + 32)).val ≤ 90) := by
      show ¬ ((Char.ofNat (c.val.toNat + 32)).val.toNat ≤ (90 : UInt32).toNat)
      rw [hv]
      have : (90 : UInt32).toNat = 90 := by decide
      omega
    simp [h90]
  next h =>
    rw [not_and_or] at h
    rcases h with h | h
    · have h65 : ¬ ((65 : UInt32) ≤ c.val) := by
        show ¬ ((65 : UInt32).toNat ≤ c.val.toNat)
        have : (65 : UInt32).toNat = 65 := by decide
        omega
      have hd : (decide ((65 : UInt32) ≤ c.val)) = false := decide_eq_false h65
      simp only [GE.ge] at *
      simp [hd]
    · have h90 : ¬ (c.val ≤ (90 : UInt32)) := by
        show ¬ (c.val.toNat ≤ (90 : UInt32).toNat)
        have : (90 : UInt32).toNat = 90 := by decide
        omega
      simp [h90]

/-- No character of a lower-cased string is an ASCII capital. -/
theorem lowerStr_no_upper {c : Char} {s : String} (h : c ∈ (lowerStr s).toList) :
    c.isUpper = false := by
  have h2 : c ∈ s.toList.map lowerChar := h
  obtain ⟨a, _, rfl⟩ := List.mem_map.mp h2
  exact toLower_isUpper_false a

/-- Stripping keeps only characters of the original string. -/
theorem mem_stripStr {c : Char} {s : String} (h : c ∈ (stripStr s).toList) :
    c ∈ s.toList := by
  have h2 : c ∈ dropTrailWs (s.toList.dropWhile isWs) := h
  unfold dropTrailWs at h2
  have h3 := (List.dropWhile_sublist _).mem (List.mem_reverse.mp h2)
  have h4 := List.mem_reverse.mp h3
  exact (List.dropWhile_sublist _).mem h4

/-- A character of a bench match at offset `k` comes from the input or
from the literal `bench`. -/
theorem benchAtK_mem {l m : List Char} {k : Nat} (hm : benchAtK l k = some m)
    {c : Char} (hc : c ∈ m) : c ∈ l ∨ c ∈ benchLit := by
  unfold benchAtK at hm
  dsimp only at hm
  split at hm
  · injection hm with hm2
    subst hm2
    rcases List.mem_append.mp hc with hc1 | hc2
    · rcases List.mem_append.mp hc1 with hc3 | hc4
      · exact Or.inl ((List.take_sublist _ _).mem hc3)
      · exact Or.inr hc4
    · have h5 := (List.takeWhile_sublist _).mem hc2
      have h6 := (List.drop_sublist _ _).mem h5
      exact Or.inl ((List.drop_sublist _ _).mem h6)
  · cases hm

/-- Characters of a bench match found by the backtracking loop. -/
theorem benchDown_mem {l m : List Char} {c : Char} :
    ∀ {k : Nat}, benchDown l k = some m → c ∈ m → c ∈ l ∨ c ∈ benchLit := by
  intro k
  induction k with
  | zero => intro h; cases h
  | succ k ih =>
    intro h hc
    unfold benchDown at h
    split at h
    · cases h
    · split at h
      · next hak => injection h with h2; subst h2; exact benchAtK_mem hak hc
      · exact ih h hc

/-- Characters of a bench match at one position. -/
theorem matchBenchHere_mem {l m : List Char} {c : Char}
    (h : matchBenchHere l = some m) (hc : c ∈ m) : c ∈ l ∨ c ∈ benchLit :=
  benchDown_mem h hc

/-- Characters of the leftmost bench match come from the input or from
the literal `bench`. -/
theorem searchBench_mem {c : Char} :
    ∀ {l m : List Char}, searchBench l = some m → c ∈ m → c ∈ l ∨ c ∈ benchLit := by
  intro l
  induction l with
  | nil => intro m h; cases h
  | cons a rest ih =>
    intro m h hc
    unfold searchBench at h
    split at h
    · next hmb =>
      injection h with h2
      subst h2
      exact matchBenchHere_mem hmb hc
    · rcases ih h hc with h1 | h2
      · exact Or.inl (List.mem_cons_of_mem _ h1)
      · exact Or.inr h2

/-- Every character of the bench field computed from a string is
non-capital, because the search runs over the lower-cased string and
the only injected characters are the lower-case literal `bench`. -/
theorem bench_from_lower_no_upper {s : String} {c : Char}
    (hc : c ∈ ((((benchSearch (lowerStr s)).map stripStr).getD "")).toList) :
    c.isUpper = false := by
  cases hsb : benchSearch (lowerStr s) with
  | none => rw [hsb] at hc; cases hc
  | some m =>
    rw [hsb] at hc
    have hcm : c ∈ m.toList := mem_stripStr hc
    unfold benchSearch at hsb
    cases hs2 : searchBench (lowerStr s).toList with
    | none => rw [hs2] at hsb; cases hsb
    | some ml =>
      rw [hs2] at hsb
      injection hsb with hsb2
      subst hsb2
      rcases searchBench_mem hs2 hcm with h1 | h2
      · exact lowerStr_no_upper h1
      · have : benchLit.all (fun x => !x.isUpper) = true := by decide
        have := List.all_eq_true.mp this c h2
        simpa using this

/-- The per-watch scan is determined by the first matching entry. -/
theorem check_watches_scan_eq_find? (now : Nat) (w : Watch)
    (entries : List CauseListEntry) :
    check_watches_scan now w entries =
      match entries.find? (watchMatches w) with
      | some e =>
        ([{ watch_id := w.id, matched_text := strTake 200 (entryRepr e),
            cause_url := w.monitor_url }], { w with last_notified := some now })
      | none => ([], w) := by
  induction entries with
  | nil => rfl
  | cons e rest ih =>
    by_cases hm : watchMatches w e = true
    · simp [check_watches_scan, hm, List.find?]
    · rw [Bool.not_eq_true] at hm
      simp [check_watches_scan, hm, List.find?, ih]

/-- At most one notification is created per watch per pass. -/
theorem check_watches_scan_length (now : Nat) (w : Watch)
    (entries : List CauseListEntry) :
    (check_watches_scan now w entries).1.length ≤ 1 := by
  rw [check_watches_scan_eq_find?]
  cases entries.find? (watchMatches w) <;> simp

/-- Python slicing `s[:n]` yields at most `n` characters. -/
theorem strTake_length_le (n : Nat) (s : String) :
    (strTake n s).toList.length ≤ n := by
  show (s.toList.take n).length ≤ n
  simp [List.length_take]

end CourtFetcher

namespace CourtFetcher

/-! ## Claim theorems -/

/-- C1 (counterexample): the claim that `find_results_table` scores
every table by the eleven-keyword set and selects the highest-scoring
table is false.  On `exDocC1` the function returns the first table with
any keyword hit (score 1) instead of the later table scoring 5, and on
`exDocHearing` it returns nothing although the header matches the
claimed keyword `hearing` with score 1 > 0, because `hearing` (like
`case no` and `bench`) is absent from the keyword list the function
actually uses. -/
theorem find_results_table_not_highest_score :
    find_results_table exDocC1 = some tablePartyOnly ∧
    specFindResultsTable exDocC1 = some tableRichHeader ∧
    tablePartyOnly ∈ exDocC1.tables ∧ tableRichHeader ∈ exDocC1.tables ∧
    table_score tablePartyOnly = 1 ∧ table_score tableRichHeader = 5 ∧
    find_results_table exDocC1 ≠ some tableRichHeader ∧
    find_results_table exDocHearing = none ∧
    table_score tableHearingOnly = 1 := by
  decide

/-- C1 (amended): `find_results_table` returns the first table in
document order whose header text contains at least one keyword of the
eight-keyword set `scraperHeaderKeywords`; every earlier table matches
no keyword — there is no score maximisation. -/
theorem find_results_table_first_keyword_match (d : Doc)
    (h : ∃ t ∈ d.tables, scraperHeaderMatch t = true) :
    ∃ pre t post, d.tables = pre ++ t :: post ∧ scraperHeaderMatch t = true ∧
      (∀ t2 ∈ pre, scraperHeaderMatch t2 = false) ∧
      find_results_table d = some t :=
  find?_eq_some_split scraperHeaderMatch d.tables h

/-- Witness for C1 (amended) at the two-table document. -/
theorem find_results_table_first_keyword_match_witness :
    ∃ pre t post, exDocC1.tables = pre ++ t :: post ∧ scraperHeaderMatch t = true ∧
      (∀ t2 ∈ pre, scraperHeaderMatch t2 = false) ∧
      find_results_table exDocC1 = some t :=
  find_results_table_first_keyword_match exDocC1 (by decide)

/-- C2 (counterexample): a successful extraction can return a case
whose case-reference field is the empty string (second cell empty), so
the claim that all five textual fields are non-empty or the sentinel
`Not Found` fails on the `case_ref` field. -/
theorem parsed_case_ref_empty_counterexample :
    (fetch_ecourts_data "<html>ok</html>" exDocC2 "http://x/" noDetail).err = none ∧
    (fetch_ecourts_data "<html>ok</html>" exDocC2 "http://x/" noDetail).parsed =
      some emptyCase ∧
    emptyCase.case_ref = "" ∧ emptyCase.case_ref ≠ "Not Found" := by
  decide

/-- C2 (amended): every `ParsedCase` returned by a successful
extraction has the four sentinel-guarded fields — parties, filing date,
next hearing date, case status — populated with non-empty text (real
text or the literal `Not Found`); the case reference is always present
but may be empty. -/
theorem parsed_case_sentinel_fields (raw : String) (d : Doc) (respUrl : String)
    (fd : String → Option DetailPage) (pc : ParsedCase)
    (h : (fetch_ecourts_data raw d respUrl fd).parsed = some pc) :
    pc.parties ≠ "" ∧ pc.filing_date ≠ "" ∧
      pc.next_hearing_date ≠ "" ∧ pc.case_status ≠ "" := by
  obtain ⟨r, rfl⟩ := fetch_parsed_from_scan h
  exact ⟨orNotFound_ne_empty _, orNotFound_ne_empty _,
    orNotFound_ne_empty _, orNotFound_ne_empty _⟩

/-- Witness for C2 (amended) at the empty-second-cell document. -/
theorem parsed_case_sentinel_fields_witness :
    emptyCase.parties ≠ "" ∧ emptyCase.filing_date ≠ "" ∧
      emptyCase.next_hearing_date ≠ "" ∧ emptyCase.case_status ≠ "" :=
  parsed_case_sentinel_fields "<html>ok</html>" exDocC2 "http://x/" noDetail
    emptyCase (by decide)

/-- C3 (counterexample): the row scan does not stop at the first row
with a non-empty case reference — it stops at the first row with two
data cells even when the extracted reference is empty.  On `exDocC3`
the code returns the empty-reference case from the second row, while
the claimed behaviour (modelled by `specScanRows`) would return the
case `CRL.A 5/2020` from the third row. -/
theorem scan_stops_at_empty_case_ref :
    (fetch_ecourts_data "<html>ok</html>" exDocC3 "http://x/" noDetail).parsed =
      some emptyCase ∧
    specScanRows "http://x/" noDetail exTableC3.rows = some fullCaseC3 ∧
    emptyCase.case_ref = "" ∧ fullCaseC3.case_ref = "CRL.A 5/2020" ∧
    emptyCase ≠ fullCaseC3 := by
  decide

/-- C3 (amended): rows with a header cell or fewer than two data cells
are skipped, and the scan stops at the first remaining row — whether or
not its second-cell text is empty; the returned case is the extraction
of that first usable row. -/
theorem scanRows_stops_at_first_usable (respUrl : String)
    (fd : String → Option DetailPage) (rows : List Row)
    (h : ∃ r ∈ rows, usableRow r = true) :
    ∃ pre r post, rows = pre ++ r :: post ∧ usableRow r = true ∧
      (∀ r2 ∈ pre, usableRow r2 = false) ∧
      scanRows respUrl fd rows = some (extractRow respUrl fd r) := by
  obtain ⟨pre, r, post, heq, hr, hpre, hfind⟩ := find?_eq_some_split usableRow rows h
  refine ⟨pre, r, post, heq, hr, hpre, ?_⟩
  rw [scanRows_eq_find?, hfind]
  rfl

/-- Witness for C3 (amended) at the whitespace-reference table. -/
theorem scanRows_stops_at_first_usable_witness :
    ∃ pre r post, exTableC3.rows = pre ++ r :: post ∧ usableRow r = true ∧
      (∀ r2 ∈ pre, usableRow r2 = false) ∧
      scanRows "http://x/" noDetail exTableC3.rows =
        some (extractRow "http://x/" noDetail r) :=
  scanRows_stops_at_first_usable "http://x/" noDetail exTableC3.rows (by decide)

end CourtFetcher

namespace CourtFetcher

/-- C4: on the spec scenario document — header `Sr No | Case No |
Parties | Hearing Date`, one data row `1 | CRL.A 123/2024 | A vs B |
12-03-2025` — the cause-list parser returns exactly one entry with the
claimed case reference, parties and hearing date; and in general the
row loop keeps exactly the non-header rows with at least one data cell
and maps each through the per-row extraction `rowEntry` (second cell as
reference when two or more cells exist else the first, third cell as
parties when present else empty, first date match of the joined text as
hearing date). -/
theorem causelist_scenario_and_rows :
    parse_causelist_html exDocC4 = [c4Entry] ∧
    c4Entry.case_ref = "CRL.A 123/2024" ∧ c4Entry.parties = "A vs B" ∧
    c4Entry.hearing_date = "12-03-2025" ∧
    ∀ rows : List Row, causelistRowsLoop rows =
      (rows.filter (fun r => !rowHasTh r && !(tdCells r).isEmpty)).map rowEntry :=
  ⟨by decide, rfl, rfl, rfl, causelistRowsLoop_eq⟩

/-- Witness for C4: the row characterisation evaluated at the concrete
scenario rows. -/
theorem causelist_scenario_and_rows_witness :
    causelistRowsLoop [c4HeaderRow, c4DataRow] =
      ([c4HeaderRow, c4DataRow].filter
        (fun r => !rowHasTh r && !(tdCells r).isEmpty)).map rowEntry :=
  causelist_scenario_and_rows.2.2.2.2 [c4HeaderRow, c4DataRow]

/-- C5: the cause-list HTML parser is a total function of the parsed
document, and whenever no candidate table exists — every table scores
zero and the text fallback matches none — it returns the empty list. -/
theorem parse_causelist_html_no_candidate (d : Doc)
    (h : ∀ t ∈ d.tables, table_score t = 0 ∧ causelistFallbackMatch t = false) :
    parse_causelist_html d = [] := by
  have hb : bestCandidate d.tables = (none, 0) :=
    bestCandidate_all_zero (fun t ht => (h t ht).1)
  have hf : causelistFallback d.tables = none :=
    List.find?_eq_none.mpr (fun t ht => by simp [(h t ht).2])
  unfold parse_causelist_html
  rw [hb, hf]
  rfl

/-- Witness for C5 at a one-table document with irrelevant content
(this also covers the zero-table document, where the hypothesis holds
vacuously). -/
theorem parse_causelist_html_no_candidate_witness :
    parse_causelist_html exDocC5 = [] :=
  parse_causelist_html_no_candidate exDocC5 (by decide)

/-- C6: whenever the response body contains (case-insensitively)
`invalid captcha`, `record not found` or `no record found`,
`fetch_ecourts_data` returns the absent result, the raw body and the
fixed message before any table parsing is attempted — the outcome is
the same for every parsed document. -/
theorem fetch_ecourts_data_error_body (raw : String) (d : Doc) (respUrl : String)
    (fd : String → Option DetailPage)
    (h : containsSub (lowerStr raw) "invalid captcha" = true ∨
         containsSub (lowerStr raw) "record not found" = true ∨
         containsSub (lowerStr raw) "no record found" = true) :
    fetch_ecourts_data raw d respUrl fd =
      { parsed := none, raw := some raw,
        err := some "Record Not Found or Invalid CAPTCHA." } := by
  have he : errorBody raw = true := by
    unfold errorBody
    rcases h with h | h | h <;> simp [h]
  unfold fetch_ecourts_data
  rw [he]
  rfl

/-- Witness for C6: a body containing `Invalid captcha entered`
short-circuits even though the document holds a parsable results
table. -/
theorem fetch_ecourts_data_error_body_witness :
    fetch_ecourts_data "<html>Invalid captcha entered</html>" exDocC2 "http://x/"
        noDetail =
      { parsed := none, raw := some "<html>Invalid captcha entered</html>",
        err := some "Record Not Found or Invalid CAPTCHA." } :=
  fetch_ecourts_data_error_body "<html>Invalid captcha entered</html>" exDocC2
    "http://x/" noDetail (Or.inl (by decide))

/-- C7: with the text-extraction capability absent, the PDF cause-list
parser fails with the configuration error on every input, and in
particular never returns a successful (empty or non-empty) result. -/
theorem parse_causelist_pdf_bytes_requires_extractor (pdf_bytes : List Nat) :
    parse_causelist_pdf_bytes none pdf_bytes =
      Except.error
        "pdfminer.six is required to parse PDFs. Please install pdfminer.six" ∧
    ∀ entries : List CauseListEntry,
      parse_causelist_pdf_bytes none pdf_bytes ≠ Except.ok entries := by
  refine ⟨rfl, ?_⟩
  intro entries hc
  rw [show parse_causelist_pdf_bytes none pdf_bytes =
      Except.error
        "pdfminer.six is required to parse PDFs. Please install pdfminer.six"
    from rfl] at hc
  cases hc

/-- Witness for C7 at a concrete byte string (the PDF magic bytes):
the configuration error is returned and the empty success result is
not. -/
theorem parse_causelist_pdf_bytes_requires_extractor_witness :
    parse_causelist_pdf_bytes none [37, 80, 68, 70] =
      Except.error
        "pdfminer.six is required to parse PDFs. Please install pdfminer.six" ∧
    parse_causelist_pdf_bytes none [37, 80, 68, 70] ≠ Except.ok [] :=
  ⟨(parse_causelist_pdf_bytes_requires_extractor [37, 80, 68, 70]).1,
   (parse_causelist_pdf_bytes_requires_extractor [37, 80, 68, 70]).2 []⟩

/-- C8: in one pass over one watch, the scan creates at most one
notification; when some entry matches, the entries split at the first
matching entry, exactly one notification is created for it (matched
text truncated to 200 characters) with the last-notified timestamp
updated, and no later entry is examined. -/
theorem check_watches_single_notification (now : Nat) (w : Watch)
    (entries : List CauseListEntry)
    (h : ∃ e ∈ entries, watchMatches w e = true) :
    (∀ es : List CauseListEntry, (check_watches_scan now w es).1.length ≤ 1) ∧
    ∃ pre e post, entries = pre ++ e :: post ∧ watchMatches w e = true ∧
      (∀ e2 ∈ pre, watchMatches w e2 = false) ∧
      check_watches_scan now w entries =
        ([{ watch_id := w.id, matched_text := strTake 200 (entryRepr e),
            cause_url := w.monitor_url }], { w with last_notified := some now }) ∧
      (strTake 200 (entryRepr e)).toList.length ≤ 200 := by
  refine ⟨check_watches_scan_length now w, ?_⟩
  obtain ⟨pre, e, post, heq, he, hpre, hfind⟩ :=
    find?_eq_some_split (watchMatches w) entries h
  refine ⟨pre, e, post, heq, he, hpre, ?_, strTake_length_le 200 _⟩
  rw [check_watches_scan_eq_find?, hfind]

/-- Witness for C8: the watch on `123/2024` against the scenario entry
`CRL.A 123/2024` produces exactly one notification. -/
theorem check_watches_single_notification_witness :
    (∀ es : List CauseListEntry, (check_watches_scan 77 exWatchC8 es).1.length ≤ 1) ∧
    ∃ pre e post, [c4Entry] = pre ++ e :: post ∧ watchMatches exWatchC8 e = true ∧
      (∀ e2 ∈ pre, watchMatches exWatchC8 e2 = false) ∧
      check_watches_scan 77 exWatchC8 [c4Entry] =
        ([{ watch_id := exWatchC8.id,
            matched_text := strTake 200 (entryRepr e),
            cause_url := exWatchC8.monitor_url }],
         { exWatchC8 with last_notified := some 77 }) ∧
      (strTake 200 (entryRepr e)).toList.length ≤ 200 :=
  check_watches_single_notification 77 exWatchC8 [c4Entry] (by decide)

/-- C9 (counterexample): the claim that the active search mode is the
first non-empty field is false: with `cino` submitted empty and both
`party_name` and `case_number` submitted non-empty, the mode resolves
to `cino` — presence, not non-emptiness, is what the loop tests — so it
does not resolve to `party_name` as the claim requires. -/
theorem selectSearchCriteria_presence_counterexample :
    selectSearchCriteria exFormC9 = some "cino" ∧
    specSelectSearchCriteria exFormC9 = some "party_name" ∧
    exFormC9 "cino" = some "" ∧
    exFormC9 "party_name" = some "John Doe" ∧
    exFormC9 "case_number" = some "42" ∧
    selectSearchCriteria exFormC9 ≠ some "party_name" := by
  decide

/-- C9 (amended): the active search mode is the first field in the
fixed priority order that is present in the submitted form, whether or
not its value is empty; in particular, when `cino` is absent and
`party_name` is present, the mode resolves to `party_name` (before
`case_number`). -/
theorem selectSearchCriteria_first_present (form : String → Option String)
    (h : ∃ c ∈ searchPriority, (form c).isSome = true) :
    ∃ pre c post, searchPriority = pre ++ c :: post ∧ (form c).isSome = true ∧
      (∀ c2 ∈ pre, (form c2).isSome = false) ∧
      selectSearchCriteria form = some c ∧
      (form "cino" = none → (form "party_name").isSome = true →
        c = "party_name") := by
  obtain ⟨pre, c, post, heq, hc, hpre, hfind⟩ :=
    find?_eq_some_split (fun c => (form c).isSome) searchPriority h
  refine ⟨pre, c, post, heq, hc, hpre, hfind, ?_⟩
  intro h1 h2
  have hpn : searchPriority.find? (fun c => (form c).isSome) = some "party_name" := by
    simp [searchPriority, List.find?, h1, h2]
  rw [hfind] at hpn
  injection hpn

/-- Witness for C9 (amended) at the form without `cino`. -/
theorem selectSearchCriteria_first_present_witness :
    ∃ pre c post, searchPriority = pre ++ c :: post ∧ (wFormC9 c).isSome = true ∧
      (∀ c2 ∈ pre, (wFormC9 c2).isSome = false) ∧
      selectSearchCriteria wFormC9 = some c ∧
      (wFormC9 "cino" = none → (wFormC9 "party_name").isSome = true →
        c = "party_name") :=
  selectSearchCriteria_first_present wFormC9 (by decide)

/-- C10: every entry produced by the cause-list HTML parser has a bench
field without any ASCII capital letter (it is either empty or carved
out of the lower-cased joined row text), so the original document
capitalisation of bench names is never preserved. -/
theorem causelist_bench_lowercase (d : Doc) (e : CauseListEntry)
    (h : e ∈ parse_causelist_html d) :
    e.bench.toList.all (fun c => !c.isUpper) = true ∧
    (parse_causelist_html exDocC10 = [c10Entry] ∧
      c10Entry.bench = "x vs y principal bench" ∧
      c10Entry.case_ref = "CRL.A 9/2020" ∧ c10Entry.parties = "X vs Y") := by
  refine ⟨?_, by decide, rfl, rfl, rfl⟩
  have hre : ∃ r, e = rowEntry r := by
    unfold parse_causelist_html at h
    dsimp only at h
    split at h
    · cases h
    · exact causelistRowsLoop_mem h
  obtain ⟨r, rfl⟩ := hre
  rw [List.all_eq_true]
  intro c hc
  rw [Bool.not_eq_true']
  simp only [rowEntry] at hc
  by_cases hp :
      containsSub
        (lowerStr (String.intercalate " " ((tdCells r).map (fun c => stripStr c.text))))
        "bench" = true
  · rw [if_pos hp] at hc
    exact bench_from_lower_no_upper hc
  · rw [if_neg hp] at hc
    cases hc

/-- Witness for C10 at the `Principal Bench` row: the extracted bench
is `x vs y principal bench`, free of capitals, while the case reference
and parties keep the capitalised source text. -/
theorem causelist_bench_lowercase_witness :
    c10Entry.bench.toList.all (fun c => !c.isUpper) = true ∧
    (parse_causelist_html exDocC10 = [c10Entry] ∧
      c10Entry.bench = "x vs y principal bench" ∧
      c10Entry.case_ref = "CRL.A 9/2020" ∧ c10Entry.parties = "X vs Y") :=
  causelist_bench_lowercase exDocC10 c10Entry (by decide)

end CourtFetcher
